import Mathlib

/-!
Shallow embedding of the `humafiber` adapter (src/humafiber.go), which plugs
the Huma API framework into the Fiber HTTP engine, together with proofs of
the specification claims about it.

Modelling conventions:
* Go `any` keys and values in the per-request store are modelled as `Nat`
  keys and `Option Nat` values (`none` is Go's untyped `nil`).
* Go strings are Lean `String`s; where character-level rewriting matters
  (path templates) we work on `List Char`.
* Request body bytes are `List Nat`.
* Go panics are explicit constructors of result types.
-/

namespace Humafiber

/-- One entry of the snapshot list, from `contextWrapperValue`
(src/humafiber.go:163-166): a key/value pair copied out of the engine's
native per-request store. -/
structure ContextWrapperValue where
  Key : Nat
  Value : Option Nat
  deriving DecidableEq, Repr

/-- The Value-Bridge Context, from `contextWrapper`
(src/humafiber.go:168-171): an ordered snapshot list plus an embedded
standard context, modelled by its `Value` method `ctx : Nat → Option Nat`. -/
structure ContextWrapper where
  values : List ContextWrapperValue
  ctx : Nat → Option Nat

/-- The linear scan of the snapshot list inside `contextWrapper.Value`
(src/humafiber.go:182-186): return the first pair whose key equals `key`
(its stored value may itself be `nil`), else `nil`. -/
def lookupValues : List ContextWrapperValue → Nat → Option Nat
  | [], _ => none
  | pair :: rest, key => if pair.Key = key then pair.Value else lookupValues rest key

/-- `contextWrapper.Value` (src/humafiber.go:177-188): ask the embedded
context first; if it returns non-nil, that value wins; otherwise scan the
snapshot list; otherwise `nil`. -/
def ContextWrapper.Value (c : ContextWrapper) (key : Nat) : Option Nat :=
  match c.ctx key with
  | some raw => some raw
  | none => lookupValues c.values key

theorem lookupValues_mem_nodup {l : List ContextWrapperValue} {k : Nat} {v : Option Nat}
    (hnd : (l.map ContextWrapperValue.Key).Nodup)
    (hmem : (⟨k, v⟩ : ContextWrapperValue) ∈ l) :
    lookupValues l k = v := by
  induction l with
  | nil => cases hmem
  | cons p rest ih =>
    rcases List.mem_cons.mp hmem with h | h
    · subst h; simp [lookupValues]
    · have hk : p.Key ≠ k := by
        intro he
        have hmem' : k ∈ rest.map ContextWrapperValue.Key :=
          List.mem_map.mpr ⟨⟨k, v⟩, h, rfl⟩
        exact (he ▸ (List.nodup_cons.mp hnd).1) hmem'
      have hnd' : (rest.map ContextWrapperValue.Key).Nodup :=
        (List.nodup_cons.mp hnd).2
      simp [lookupValues, hk, ih hnd' h]

theorem lookupValues_not_mem {l : List ContextWrapperValue} {k : Nat}
    (h : k ∉ l.map ContextWrapperValue.Key) :
    lookupValues l k = none := by
  induction l with
  | nil => rfl
  | cons p rest ih =>
    simp only [List.map_cons, List.mem_cons] at h
    push_neg at h
    have hne : p.Key ≠ k := fun he => h.1 he.symm
    simp [lookupValues, hne, ih h.2]

/-- Claim C1: for every key/value pair in the snapshot taken from the
engine's per-request store, `contextWrapper.Value` returns that pair's
value, unless the embedded standard context returns a non-nil value for an
equal key, in which case the embedded context's value is returned; a key
found in neither yields nil. (The snapshot has pairwise distinct keys,
since the engine's store replaces a re-set key rather than duplicating
it.) -/
theorem contextWrapper_Value_spec (c : ContextWrapper) (k : Nat)
    (hnd : (c.values.map ContextWrapperValue.Key).Nodup) :
    (∀ raw, c.ctx k = some raw → c.Value k = some raw) ∧
    (c.ctx k = none → ∀ v, (⟨k, v⟩ : ContextWrapperValue) ∈ c.values →
      c.Value k = v) ∧
    (c.ctx k = none → k ∉ c.values.map ContextWrapperValue.Key →
      c.Value k = none) := by
  refine ⟨?_, ?_, ?_⟩
  · intro raw hraw
    simp [ContextWrapper.Value, hraw]
  · intro hnone v hmem
    simp [ContextWrapper.Value, hnone, lookupValues_mem_nodup hnd hmem]
  · intro hnone hnot
    simp [ContextWrapper.Value, hnone, lookupValues_not_mem hnot]

/-- Witness for `contextWrapper_Value_spec` at a concrete bridge context:
snapshot `[(1, some 10), (2, none)]`, embedded context supplying key 5. -/
theorem contextWrapper_Value_spec_witness :
    let c : ContextWrapper :=
      { values := [⟨1, some 10⟩, ⟨2, none⟩],
        ctx := fun k => if k = 5 then some 50 else none }
    c.Value 1 = some 10 := by
  have h := contextWrapper_Value_spec
    { values := [⟨1, some 10⟩, ⟨2, none⟩],
      ctx := fun k => if k = 5 then some 50 else none } 1 (by decide)
  exact h.2.1 (by decide) (some 10) (by decide)

/-! ## Engine context, wrapper, and operation model -/

/-- A framework `huma.Operation` as the adapter uses it: its HTTP method and
its curly-brace path template (src/humafiber.go:190-196 reads `op.Method`
and `op.Path`). -/
structure Operation where
  Method : String
  Path : List Char
  deriving DecidableEq, Repr

/-- The engine's native request context (`fiber.Ctx`) restricted to the
state the adapter reads or writes: the per-request locals store, the raw
request-URI, the response status set via `Status`, the streaming-mode flag
of the app's server, the buffered raw body, an identity for the live body
stream, and the negotiated protocol string. -/
structure FiberCtx where
  locals : List (Nat × Option Nat)
  requestURI : String
  responseStatus : Nat
  streamRequestBody : Bool
  bodyRaw : List Nat
  bodyStreamId : Nat
  protocol : String
  deriving DecidableEq, Repr

/-- The adapter's `fiberWrapper` (src/humafiber.go:35-40): operation
reference, cached status field, the underlying engine context, and the
bridged standard context. -/
structure FiberWrapper where
  op : Operation
  status : Nat
  orig : FiberCtx
  ctx : ContextWrapper

/-! ## Claim C2: URL parsing -/

/-- Modelled from the spec and Go's documented `net/url.Parse` behaviour
(standard library, not part of src/): parsing a request-URI can fail — the
spec speaks of "malformed ones that the URL parser rejects" — in which
case Go returns a `nil` pointer and an error. We model one documented
failure: a URI whose scheme part before the first colon is empty (such as
the string consisting of a single colon) is rejected with "missing
protocol scheme". Success returns the parsed URL, modelled by its raw
string. -/
def urlParse (s : String) : Option String :=
  if s.data.head? = some ':' then none else some s

/-- Result of `fiberWrapper.URL`: either a `url.URL` value returned
normally, or the runtime fault from dereferencing the `nil` pointer that
`url.Parse` returns on failure. -/
inductive URLResult where
  | ok (u : String)
  | nilDeref
  deriving DecidableEq, Repr

/-- `fiberWrapper.URL` (src/humafiber.go:73-76): `u, _ := url.Parse(...)`
discards the error and returns `*u`; when the parse failed, `u` is `nil`
and the dereference is a runtime fault. -/
def FiberWrapper.URL (w : FiberWrapper) : URLResult :=
  match urlParse w.orig.requestURI with
  | some u => URLResult.ok u
  | none => URLResult.nilDeref

/-- Claim C2 is false on the code: on a request-URI the URL parser rejects
(here the single-colon URI, "missing protocol scheme"), `URL()` does not
return a soft zero-value URL — it dereferences the nil pointer returned by
the discarded failing parse, a runtime fault. -/
theorem fiberWrapper_URL_crashes_on_malformed :
    ({ op := ⟨"GET", "/".data⟩, status := 0,
       orig := { locals := [], requestURI := ":", responseStatus := 200,
                 streamRequestBody := false, bodyRaw := [], bodyStreamId := 0,
                 protocol := "http" },
       ctx := { values := [], ctx := fun _ => none } } : FiberWrapper).URL
      = URLResult.nilDeref ∧
    URLResult.nilDeref ≠ URLResult.ok "" := by
  decide

/-! ## Claim C3: path template rewriting and route registration -/

/-- Go `strings.ReplaceAll` specialised to the adapter's two calls
(src/humafiber.go:193-194), whose patterns are single characters: each
occurrence of `pat` is replaced by the string `rep`. -/
def replaceAllChar : List Char → Char → List Char → List Char
  | [], _, _ => []
  | c :: rest, pat, rep =>
      (if c = pat then rep else [c]) ++ replaceAllChar rest pat rep

/-- The path rewrite inside `fiberAdapter.Handle`
(src/humafiber.go:192-194): replace every `{` with `:`, then delete every
`}`. -/
def convertPath (p : List Char) : List Char :=
  replaceAllChar (replaceAllChar p '{' [':']) '}' []

/-- The spec's description of the rewrite, stated independently: map each
character, turning `{` into `:` and dropping `}`. -/
def specRewrite (p : List Char) : List Char :=
  p.filterMap fun c =>
    if c = '}' then none else if c = '{' then some ':' else some c

/-- The routing table built by `fiberAdapter.Handle`
(src/humafiber.go:196): registration appends one route under the
operation's method and the rewritten path. -/
def fiberAdapter.Handle (routes : List (String × List Char)) (op : Operation) :
    List (String × List Char) :=
  routes ++ [(op.Method, convertPath op.Path)]

theorem replaceAllChar_append (a b : List Char) (pat : Char) (rep : List Char) :
    replaceAllChar (a ++ b) pat rep =
      replaceAllChar a pat rep ++ replaceAllChar b pat rep := by
  induction a with
  | nil => rfl
  | cons c rest ih => simp [replaceAllChar, ih]

theorem convertPath_eq_specRewrite (p : List Char) :
    convertPath p = specRewrite p := by
  induction p with
  | nil => rfl
  | cons c rest ih =>
    by_cases h1 : c = '{'
    · subst h1
      simp [convertPath, specRewrite, replaceAllChar, replaceAllChar_append]
        at ih ⊢
      exact ih
    · by_cases h2 : c = '}'
      · subst h2
        simp [convertPath, specRewrite, replaceAllChar, replaceAllChar_append]
          at ih ⊢
        exact ih
      · simp [convertPath, specRewrite, replaceAllChar, replaceAllChar_append,
          h1, h2] at ih ⊢
        exact ih

theorem specRewrite_no_braces : ∀ p : List Char, '{' ∉ p → '}' ∉ p →
    specRewrite p = p
  | [], _, _ => rfl
  | c :: rest, h1, h2 => by
    simp only [List.mem_cons] at h1 h2
    push_neg at h1 h2
    have hc1 : c ≠ '{' := fun he => h1.1 he.symm
    have hc2 : c ≠ '}' := fun he => h2.1 he.symm
    simp only [specRewrite, List.filterMap_cons, if_neg hc2, if_neg hc1]
    exact congrArg (c :: ·) (specRewrite_no_braces rest h1.2 h2.2)

/-- Claim C3: registration rewrites the operation's path template by
turning every `{` into `:` and deleting every `}` (so each `{name}`
segment becomes `:name`), registers the handler under exactly that
rewritten path with the operation's method, and leaves brace-free
templates unchanged. -/
theorem fiberAdapter_Handle_path_rewrite
    (routes : List (String × List Char)) (op : Operation) :
    fiberAdapter.Handle routes op = routes ++ [(op.Method, specRewrite op.Path)] ∧
    ('{' ∉ op.Path → '}' ∉ op.Path → convertPath op.Path = op.Path) := by
  constructor
  · simp [fiberAdapter.Handle, convertPath_eq_specRewrite]
  · intro h1 h2
    rw [convertPath_eq_specRewrite]
    exact specRewrite_no_braces op.Path h1 h2

/-- Witness for `fiberAdapter_Handle_path_rewrite` on the template
`/items/{id}` (rewritten to `/items/:id`) and the brace-free template
`/health` (unchanged). -/
theorem fiberAdapter_Handle_path_rewrite_witness :
    fiberAdapter.Handle [] ⟨"GET", "/items/{id}".data⟩ =
      [("GET", "/items/:id".data)] ∧
    convertPath "/health".data = "/health".data := by
  refine ⟨?_, ?_⟩
  · have h := (fiberAdapter_Handle_path_rewrite [] ⟨"GET", "/items/{id}".data⟩).1
    rw [h]; rfl
  · exact (fiberAdapter_Handle_path_rewrite [] ⟨"GET", "/health".data⟩).2
      (by decide) (by decide)

/-! ## The wrapper built per request by the route handler -/

/-- The wrapper construction inside the closure registered by
`fiberAdapter.Handle` (src/humafiber.go:196-214): snapshot the engine's
locals (in enumeration order) into `contextWrapperValue` pairs, embed a
fresh background context (whose `Value` is always nil), and build the
`fiberWrapper` with the struct literal `{op, orig, ctx}` — the `status`
field is left at Go's integer zero value. -/
def handleWrapper (op : Operation) (c : FiberCtx) : FiberWrapper :=
  { op := op
    status := 0
    orig := c
    ctx :=
      { values := c.locals.map fun p => { Key := p.1, Value := p.2 }
        ctx := fun _ => none } }

/-! ## Claim C4: Unwrap -/

/-- A `huma.Context` value as seen by `Unwrap`: either this adapter's
`fiberWrapper`, or a context produced by some other adapter. -/
inductive HumaContext where
  | fiber (w : FiberWrapper)
  | other

/-- Result of calling `Unwrap`: a normal return carrying a `fiber.Ctx`
interface value (`none` would be Go's nil interface), or a panic. -/
inductive UnwrapResult where
  | ok (c : Option FiberCtx)
  | panicked (msg : String)

/-- `Unwrap` (src/humafiber.go:23-28) together with `fiberWrapper.Unwrap`
(src/humafiber.go:45-47): a type test; on this adapter's wrapper return
`c.orig`, otherwise panic. The adapter stores the engine context it was
dispatched with, never a nil interface, so the returned value is
`some w.orig`. -/
def Unwrap : HumaContext → UnwrapResult
  | HumaContext.fiber w => UnwrapResult.ok (some w.orig)
  | HumaContext.other => UnwrapResult.panicked "not a humafiber context"

/-- Claim C4: `Unwrap` applied to a context produced by this adapter
returns the non-nil underlying engine context stored in it; applied to any
other context it panics and in particular never returns — quietly or
otherwise — a nil value. -/
theorem Unwrap_spec (op : Operation) (c : FiberCtx) :
    Unwrap (HumaContext.fiber (handleWrapper op c)) = UnwrapResult.ok (some c) ∧
    Unwrap HumaContext.other = UnwrapResult.panicked "not a humafiber context" ∧
    (∀ r : Option FiberCtx, Unwrap HumaContext.other ≠ UnwrapResult.ok r) := by
  refine ⟨rfl, rfl, fun r h => ?_⟩
  cases h

/-- Witness for `Unwrap_spec` at a concrete engine context: the wrapper
round-trips to exactly that context, and a foreign context panics rather
than yielding a quiet nil. -/
theorem Unwrap_spec_witness :
    Unwrap (HumaContext.fiber (handleWrapper ⟨"GET", "/".data⟩
      { locals := [(1, some 10)], requestURI := "/", responseStatus := 0,
        streamRequestBody := false, bodyRaw := [], bodyStreamId := 0,
        protocol := "http" })) =
      UnwrapResult.ok (some
        { locals := [(1, some 10)], requestURI := "/", responseStatus := 0,
          streamRequestBody := false, bodyRaw := [], bodyStreamId := 0,
          protocol := "http" }) ∧
    Unwrap HumaContext.other ≠ UnwrapResult.ok none :=
  ⟨(Unwrap_spec ⟨"GET", "/".data⟩
      { locals := [(1, some 10)], requestURI := "/", responseStatus := 0,
        streamRequestBody := false, bodyRaw := [], bodyStreamId := 0,
        protocol := "http" }).1,
    (Unwrap_spec ⟨"GET", "/".data⟩
      { locals := [(1, some 10)], requestURI := "/", responseStatus := 0,
        streamRequestBody := false, bodyRaw := [], bodyStreamId := 0,
        protocol := "http" }).2.2 none⟩

/-! ## Claims C5 and C10: status caching -/

/-- `fiberWrapper.SetStatus` (src/humafiber.go:120-124): store the code in
the wrapper's cached `status` field and call `orig.Status(code)`, which
sets the engine response's status code. -/
def FiberWrapper.SetStatus (w : FiberWrapper) (code : Nat) : FiberWrapper :=
  { w with status := code, orig := { w.orig with responseStatus := code } }

/-- `fiberWrapper.Status` (src/humafiber.go:126-128): return the cached
`status` field. -/
def FiberWrapper.Status (w : FiberWrapper) : Nat :=
  w.status

/-- Claim C5: for every status code in the valid HTTP range, after any
sequence of earlier `SetStatus` calls, `SetStatus code` followed by
`Status()` yields `code` (the last code set wins), and the engine
response's status is the same `code`. -/
theorem fiberWrapper_SetStatus_Status (w : FiberWrapper) (cs : List Nat)
    (code : Nat) (h1 : 100 ≤ code) (h2 : code ≤ 599) :
    ((cs.foldl FiberWrapper.SetStatus w).SetStatus code).Status = code ∧
    ((cs.foldl FiberWrapper.SetStatus w).SetStatus code).orig.responseStatus
      = code := by
  exact ⟨rfl, rfl⟩

/-- Witness for `fiberWrapper_SetStatus_Status`: the wrapper freshly built
for a request, two earlier `SetStatus` calls, then `SetStatus 204`. -/
theorem fiberWrapper_SetStatus_Status_witness :
    (100 ≤ 204 ∧ 204 ≤ 599) ∧
    (((([500, 200] : List Nat).foldl FiberWrapper.SetStatus
        (handleWrapper ⟨"GET", "/".data⟩
          { locals := [], requestURI := "/", responseStatus := 200,
            streamRequestBody := false, bodyRaw := [], bodyStreamId := 0,
            protocol := "http" })).SetStatus 204).Status = 204 ∧
      ((([500, 200] : List Nat).foldl FiberWrapper.SetStatus
        (handleWrapper ⟨"GET", "/".data⟩
          { locals := [], requestURI := "/", responseStatus := 200,
            streamRequestBody := false, bodyRaw := [], bodyStreamId := 0,
            protocol := "http" })).SetStatus 204).orig.responseStatus = 204) :=
  ⟨⟨by decide, by decide⟩,
    fiberWrapper_SetStatus_Status
      (handleWrapper ⟨"GET", "/".data⟩
        { locals := [], requestURI := "/", responseStatus := 200,
          streamRequestBody := false, bodyRaw := [], bodyStreamId := 0,
          protocol := "http" })
      [500, 200] 204 (by decide) (by decide)⟩

/-- Claim C10: on the wrapper freshly constructed by the route handler,
before any `SetStatus` call, `Status()` returns the integer zero value 0 —
not the engine's default status 200, even when the engine response already
carries 200. -/
theorem fiberWrapper_fresh_Status_zero (op : Operation) (c : FiberCtx) :
    (handleWrapper op c).Status = 0 ∧ (handleWrapper op c).Status ≠ 200 := by
  exact ⟨rfl, by simp [handleWrapper, FiberWrapper.Status]⟩

/-- Witness for `fiberWrapper_fresh_Status_zero` on a request whose engine
response already carries the default status 200. -/
theorem fiberWrapper_fresh_Status_zero_witness :
    (handleWrapper ⟨"GET", "/".data⟩
      { locals := [], requestURI := "/", responseStatus := 200,
        streamRequestBody := false, bodyRaw := [], bodyStreamId := 0,
        protocol := "http" }).Status = 0 :=
  (fiberWrapper_fresh_Status_zero ⟨"GET", "/".data⟩
    { locals := [], requestURI := "/", responseStatus := 200,
      streamRequestBody := false, bodyRaw := [], bodyStreamId := 0,
      protocol := "http" }).1

/-! ## Claim C6: body reader -/

/-- The `io.Reader` returned by `fiberWrapper.BodyReader`: either the
engine's live body stream (identified, not buffered) or a
`bytes.Reader` over the buffered raw body with a read position. -/
inductive BodyReaderResult where
  | stream (id : Nat)
  | bytesReader (data : List Nat) (pos : Nat)
  deriving DecidableEq, Repr

/-- `fiberWrapper.BodyReader` (src/humafiber.go:96-103): if the app
server's `StreamRequestBody` is set, return the live stream; otherwise a
fresh `bytes.Reader` over `BodyRaw()`, positioned at the start. -/
def FiberWrapper.BodyReader (w : FiberWrapper) : BodyReaderResult :=
  if w.orig.streamRequestBody then BodyReaderResult.stream w.orig.bodyStreamId
  else BodyReaderResult.bytesReader w.orig.bodyRaw 0

/-- Reading a `bytes.Reader` to exhaustion (the semantics of Go's
`bytes.NewReader`): one full pass returns every byte from the current
position and leaves the reader at end-of-data; a live stream is engine
I/O, not modelled, and is returned unchanged. -/
def readAll : BodyReaderResult → List Nat × BodyReaderResult
  | BodyReaderResult.stream i => ([], BodyReaderResult.stream i)
  | BodyReaderResult.bytesReader d pos =>
      (d.drop pos, BodyReaderResult.bytesReader d d.length)

/-- Claim C6: `BodyReader` returns the live stream (no buffering) exactly
when the engine is in streaming mode; otherwise a fresh one-shot reader
over the buffered raw body bytes, whose single full read pass yields
exactly those bytes and whose subsequent read yields nothing. -/
theorem fiberWrapper_BodyReader_spec (w : FiberWrapper) :
    (w.orig.streamRequestBody = true →
      w.BodyReader = BodyReaderResult.stream w.orig.bodyStreamId) ∧
    (w.orig.streamRequestBody = false →
      w.BodyReader = BodyReaderResult.bytesReader w.orig.bodyRaw 0 ∧
      readAll w.BodyReader =
        (w.orig.bodyRaw,
          BodyReaderResult.bytesReader w.orig.bodyRaw w.orig.bodyRaw.length) ∧
      (readAll (readAll w.BodyReader).2).1 = []) := by
  refine ⟨fun hs => ?_, fun hs => ?_⟩
  · simp [FiberWrapper.BodyReader, hs]
  · refine ⟨by simp [FiberWrapper.BodyReader, hs], ?_, ?_⟩
    · simp [FiberWrapper.BodyReader, hs, readAll]
    · simp [FiberWrapper.BodyReader, hs, readAll]

/-- Witness for `fiberWrapper_BodyReader_spec`: a streaming-mode wrapper
returns the live stream, and a buffered-mode wrapper over body `[7, 8, 9]`
reads back exactly `[7, 8, 9]` once. -/
theorem fiberWrapper_BodyReader_spec_witness :
    (handleWrapper ⟨"POST", "/".data⟩
      { locals := [], requestURI := "/", responseStatus := 0,
        streamRequestBody := true, bodyRaw := [], bodyStreamId := 3,
        protocol := "http" }).BodyReader = BodyReaderResult.stream 3 ∧
    readAll (handleWrapper ⟨"POST", "/".data⟩
      { locals := [], requestURI := "/", responseStatus := 0,
        streamRequestBody := false, bodyRaw := [7, 8, 9], bodyStreamId := 0,
        protocol := "http" }).BodyReader =
      ([7, 8, 9], BodyReaderResult.bytesReader [7, 8, 9] 3) :=
  ⟨(fiberWrapper_BodyReader_spec
      (handleWrapper ⟨"POST", "/".data⟩
        { locals := [], requestURI := "/", responseStatus := 0,
          streamRequestBody := true, bodyRaw := [], bodyStreamId := 3,
          protocol := "http" })).1 rfl,
    by
      have h := (fiberWrapper_BodyReader_spec
        (handleWrapper ⟨"POST", "/".data⟩
          { locals := [], requestURI := "/", responseStatus := 0,
            streamRequestBody := false, bodyRaw := [7, 8, 9], bodyStreamId := 0,
            protocol := "http" })).2 rfl
      exact h.2.1⟩

/-! ## Claim C8: TLS placeholder -/

/-- A model of `tls.ConnectionState` restricted to a few representative
fields; the placeholder the adapter returns is the zero value. -/
structure TLSConnectionState where
  version : Nat
  handshakeComplete : Bool
  serverName : String
  deriving DecidableEq, Repr

/-- The zero value `&tls.ConnectionState{}` built at src/humafiber.go:147. -/
def emptyConnectionState : TLSConnectionState :=
  { version := 0, handshakeComplete := false, serverName := "" }

/-- `fiberWrapper.TLS` (src/humafiber.go:141-150): if the negotiated
protocol string equals "https", return a pointer to a zero-value
placeholder; otherwise nil. -/
def FiberWrapper.TLS (w : FiberWrapper) : Option TLSConnectionState :=
  if w.orig.protocol = "https" then some emptyConnectionState else none

/-- Claim C8: `TLS()` returns a non-nil placeholder exactly when the
request's protocol string equals "https", returns nil in every other
case, and the placeholder carries no populated handshake fields (it is
the zero value). -/
theorem fiberWrapper_TLS_spec (w : FiberWrapper) :
    (w.TLS ≠ none ↔ w.orig.protocol = "https") ∧
    (∀ s, w.TLS = some s → s = emptyConnectionState) := by
  constructor
  · constructor
    · intro hne
      by_cases hp : w.orig.protocol = "https"
      · exact hp
      · exact absurd (by simp [FiberWrapper.TLS, hp]) hne
    · intro hp
      simp [FiberWrapper.TLS, hp]
  · intro s hs
    by_cases hp : w.orig.protocol = "https"
    · simp [FiberWrapper.TLS, hp] at hs
      exact hs.symm
    · simp [FiberWrapper.TLS, hp] at hs

/-- Witness for `fiberWrapper_TLS_spec` on an "https" request and an
"http" request. -/
theorem fiberWrapper_TLS_spec_witness :
    (handleWrapper ⟨"GET", "/".data⟩
      { locals := [], requestURI := "/", responseStatus := 0,
        streamRequestBody := false, bodyRaw := [], bodyStreamId := 0,
        protocol := "https" }).TLS = some emptyConnectionState ∧
    (handleWrapper ⟨"GET", "/".data⟩
      { locals := [], requestURI := "/", responseStatus := 0,
        streamRequestBody := false, bodyRaw := [], bodyStreamId := 0,
        protocol := "http" }).TLS = none := by
  constructor
  · have h := (fiberWrapper_TLS_spec
      (handleWrapper ⟨"GET", "/".data⟩
        { locals := [], requestURI := "/", responseStatus := 0,
          streamRequestBody := false, bodyRaw := [], bodyStreamId := 0,
          protocol := "https" })).1.mpr rfl
    rcases ho : (handleWrapper ⟨"GET", "/".data⟩
      { locals := [], requestURI := "/", responseStatus := 0,
        streamRequestBody := false, bodyRaw := [], bodyStreamId := 0,
        protocol := "https" }).TLS with _ | s
    · exact absurd ho h
    · have hs := (fiberWrapper_TLS_spec
        (handleWrapper ⟨"GET", "/".data⟩
          { locals := [], requestURI := "/", responseStatus := 0,
            streamRequestBody := false, bodyRaw := [], bodyStreamId := 0,
            protocol := "https" })).2 s ho
      exact congrArg some hs
  · decide

/-! ## Claim C9: the registered closure never returns an error -/

/-- The body of the handler closure that `fiberAdapter.Handle` installs in
the engine's routing table (src/humafiber.go:196-216): build the wrapper,
run the framework's operation handler synchronously (its effect on the
wrapper is irrelevant to the returned error), and `return nil`. The
result's second component is the `error` returned to the engine. -/
def routeClosure (op : Operation) (handler : FiberWrapper → FiberWrapper)
    (c : FiberCtx) : FiberWrapper × Option String :=
  (handler (handleWrapper op c), none)

/-- Claim C9: the closure installed by registration returns a nil error to
the engine on every invocation, whatever the framework handler does
through the wrapper. -/
theorem routeClosure_returns_nil_error (op : Operation)
    (handler : FiberWrapper → FiberWrapper) (c : FiberCtx) :
    (routeClosure op handler c).2 = none :=
  rfl

/-! ## Claim C7: the synchronous bridging entry point -/

/-- The `*http.Response` returned by the engine's in-process test
execution: a header map (one entry per name — Go's `http.Header` is a
map, so names are distinct — with the values for that name in order), a
status code, and a body. -/
structure HTTPResponse where
  header : List (String × List String)
  statusCode : Nat
  body : List Nat

/-- One observable action `ServeHTTP` performs on the target
`http.ResponseWriter`, in order. -/
inductive WriterEvent where
  | addHeader (name value : String)
  | writeHeader (status : Nat)
  | write (bytes : List Nat)
  deriving DecidableEq, Repr

/-- The header-copying loop of `ServeHTTP` (src/humafiber.go:231-236):
for each name, `h.Add` each of its values in index order. (Go iterates
the map's names in unspecified order; the model fixes the list order,
which is immaterial to per-name value order.) -/
def headerEvents : List (String × List String) → List WriterEvent
  | [] => []
  | (k, vs) :: rest => vs.map (WriterEvent.addHeader k) ++ headerEvents rest

/-- `fiberAdapter.ServeHTTP` (src/humafiber.go:219-239), with the
in-process execution's outcome as input: a non-nil error is a panic
(modelled as `Except.error`, nothing written); otherwise copy every
header value, write the status code, then stream-copy the body, in that
order. -/
def fiberAdapter.ServeHTTP (result : Except String HTTPResponse) :
    Except String (List WriterEvent) :=
  match result with
  | Except.error e => Except.error e
  | Except.ok resp =>
      Except.ok (headerEvents resp.header ++
        [WriterEvent.writeHeader resp.statusCode, WriterEvent.write resp.body])

/-- The values added for one header name, in the order they were added. -/
def addedValuesFor (k : String) : List WriterEvent → List String
  | [] => []
  | WriterEvent.addHeader k' v :: rest =>
      if k' = k then v :: addedValuesFor k rest else addedValuesFor k rest
  | _ :: rest => addedValuesFor k rest

theorem addedValuesFor_append (k : String) (a b : List WriterEvent) :
    addedValuesFor k (a ++ b) = addedValuesFor k a ++ addedValuesFor k b := by
  induction a with
  | nil => rfl
  | cons ev rest ih =>
    cases ev with
    | addHeader k' v =>
      by_cases h : k' = k <;> simp [addedValuesFor, h, ih]
    | writeHeader s => simp [addedValuesFor, ih]
    | write bs => simp [addedValuesFor, ih]

theorem addedValuesFor_block_eq (k : String) (vs : List String) :
    addedValuesFor k (vs.map (WriterEvent.addHeader k)) = vs := by
  induction vs with
  | nil => rfl
  | cons v rest ih => simp [addedValuesFor, ih]

theorem addedValuesFor_block_ne {k k' : String} (h : k' ≠ k) (vs : List String) :
    addedValuesFor k (vs.map (WriterEvent.addHeader k')) = [] := by
  induction vs with
  | nil => rfl
  | cons v rest ih => simp [addedValuesFor, h, ih]

theorem addedValuesFor_headerEvents {hs : List (String × List String)}
    {k : String} {vs : List String}
    (hnd : (hs.map Prod.fst).Nodup) (hmem : (k, vs) ∈ hs) :
    addedValuesFor k (headerEvents hs) = vs := by
  induction hs with
  | nil => cases hmem
  | cons p rest ih =>
    obtain ⟨k0, vs0⟩ := p
    rcases List.mem_cons.mp hmem with h | h
    · injection h with hk hv
      subst hk; subst hv
      have hrest : k ∉ rest.map Prod.fst := (List.nodup_cons.mp hnd).1
      have hzero : addedValuesFor k (headerEvents rest) = [] := by
        clear ih hnd hmem
        induction rest with
        | nil => rfl
        | cons q qrest ihq =>
          obtain ⟨kq, vq⟩ := q
          simp only [List.map_cons, List.mem_cons] at hrest
          push_neg at hrest
          simp [headerEvents, addedValuesFor_append,
            addedValuesFor_block_ne (fun he => hrest.1 he.symm) vq,
            ihq hrest.2]
      simp [headerEvents, addedValuesFor_append, addedValuesFor_block_eq, hzero]
    · have hne : k0 ≠ k := by
        intro he
        have hmem' : k ∈ rest.map Prod.fst :=
          List.mem_map.mpr ⟨(k, vs), h, rfl⟩
        exact (he ▸ (List.nodup_cons.mp hnd).1) hmem'
      simp [headerEvents, addedValuesFor_append, addedValuesFor_block_ne hne,
        ih (List.nodup_cons.mp hnd).2 h]

/-- Claim C7: when the in-process execution fails, `ServeHTTP` panics
with that error and writes nothing; when it succeeds, `ServeHTTP` copies
every header value onto the writer — per name, all values in their
original order — then writes the status code, then streams the body. -/
theorem fiberAdapter_ServeHTTP_spec (result : Except String HTTPResponse) :
    (∀ e, result = Except.error e →
      fiberAdapter.ServeHTTP result = Except.error e) ∧
    (∀ resp, result = Except.ok resp →
      fiberAdapter.ServeHTTP result =
        Except.ok (headerEvents resp.header ++
          [WriterEvent.writeHeader resp.statusCode,
           WriterEvent.write resp.body]) ∧
      ((resp.header.map Prod.fst).Nodup → ∀ k vs, (k, vs) ∈ resp.header →
        addedValuesFor k (headerEvents resp.header ++
          [WriterEvent.writeHeader resp.statusCode,
           WriterEvent.write resp.body]) = vs)) := by
  refine ⟨fun e he => ?_, fun resp hr => ⟨?_, fun hnd k vs hmem => ?_⟩⟩
  · subst he; rfl
  · subst hr; rfl
  · rw [addedValuesFor_append]
    simp [addedValuesFor, addedValuesFor_headerEvents hnd hmem]

/-- Witness for `fiberAdapter_ServeHTTP_spec`: a failing execution
propagates the fault, and a successful response with header
`X-Test: [a, b]`, status 200 and body `[1]` is replayed in order with
both `X-Test` values preserved. -/
theorem fiberAdapter_ServeHTTP_spec_witness :
    fiberAdapter.ServeHTTP (Except.error "boom") = Except.error "boom" ∧
    fiberAdapter.ServeHTTP
        (Except.ok { header := [("X-Test", ["a", "b"]), ("Vary", ["Accept"])],
                     statusCode := 200, body := [1] }) =
      Except.ok
        [WriterEvent.addHeader "X-Test" "a", WriterEvent.addHeader "X-Test" "b",
         WriterEvent.addHeader "Vary" "Accept",
         WriterEvent.writeHeader 200, WriterEvent.write [1]] ∧
    addedValuesFor "X-Test"
        (headerEvents [("X-Test", ["a", "b"]), ("Vary", ["Accept"])] ++
          [WriterEvent.writeHeader 200, WriterEvent.write [1]]) = ["a", "b"] := by
  refine ⟨(fiberAdapter_ServeHTTP_spec (Except.error "boom")).1 "boom" rfl,
    ?_, ?_⟩
  · have h := ((fiberAdapter_ServeHTTP_spec
      (Except.ok { header := [("X-Test", ["a", "b"]), ("Vary", ["Accept"])],
                   statusCode := 200, body := [1] })).2 _ rfl).1
    rw [h]; rfl
  · exact ((fiberAdapter_ServeHTTP_spec
      (Except.ok { header := [("X-Test", ["a", "b"]), ("Vary", ["Accept"])],
                   statusCode := 200, body := [1] })).2 _ rfl).2
      (by decide) "X-Test" ["a", "b"] (by decide)

end Humafiber
